import Mathlib

/-!
Verification of the lionfuncs network execution core against its
natural-language specification.  The definitions below are shallow
embeddings of the Python source files:

  src/lionfuncs/network/events.py   (NetworkRequestEvent)
  src/lionfuncs/network/client.py   (AsyncAPIClient)
  src/lionfuncs/async_utils.py      (alcall retry/ordering logic)
  src/lionfuncs/utils.py            (to_list post-processing)

Machine time (datetime.datetime.now) is modelled by an explicit Nat
clock value supplied to each operation.
-/

namespace Lionfuncs

/-! ## Request status (events.py, RequestStatus) -/

inductive RequestStatus where
  | PENDING
  | QUEUED
  | PROCESSING
  | CALLING
  | COMPLETED
  | FAILED
  | CANCELLED
deriving DecidableEq, Repr

def statusStr : RequestStatus → String
  | .PENDING => "PENDING"
  | .QUEUED => "QUEUED"
  | .PROCESSING => "PROCESSING"
  | .CALLING => "CALLING"
  | .COMPLETED => "COMPLETED"
  | .FAILED => "FAILED"
  | .CANCELLED => "CANCELLED"

/-! ## NetworkRequestEvent (events.py)

Response headers/bodies and error payloads are opaque to all the
properties we verify, so they are carried as Option String. -/

structure NetworkRequestEvent where
  request_id : String
  status : RequestStatus
  response_status_code : Option Nat
  response_headers : Option String
  response_body : Option String
  error_type : Option String
  error_message : Option String
  error_details : Option String
  queued_at : Option Nat
  processing_started_at : Option Nat
  call_started_at : Option Nat
  completed_at : Option Nat
  logs : List String
  updated_at : Nat
deriving DecidableEq, Repr

/-- A freshly constructed event: status PENDING, everything else unset,
mirroring the field defaults of the NetworkRequestEvent model. -/
def initEvent (rid : String) : NetworkRequestEvent :=
  { request_id := rid
    status := .PENDING
    response_status_code := none
    response_headers := none
    response_body := none
    error_type := none
    error_message := none
    error_details := none
    queued_at := none
    processing_started_at := none
    call_started_at := none
    completed_at := none
    logs := []
    updated_at := 0 }

/-- Mirrors NetworkRequestEvent.add_log: append a timestamped message and
bump updated_at. -/
def add_log (e : NetworkRequestEvent) (now : Nat) (msg : String) : NetworkRequestEvent :=
  { e with logs := e.logs ++ [toString now ++ " - " ++ msg], updated_at := now }

/-- Mirrors NetworkRequestEvent.update_status.  The Python body assigns
self.status unconditionally, logs on change, then runs an if/elif chain
whose guards each require a different new_status (QUEUED / PROCESSING /
CALLING / terminal) together with the target timestamp being unset; the
guards are therefore mutually exclusive and the chain is exactly the four
independent per-field conditional updates written here.  A datetime is
always truthy in Python, so the guard not self.queued_at means
queued_at is None, i.e. the Option is none. -/
def update_status (e : NetworkRequestEvent) (new_status : RequestStatus)
    (now : Nat) : NetworkRequestEvent :=
  let logs2 := if e.status = new_status then e.logs
    else e.logs ++ [toString now ++ " - Status changed from " ++ statusStr e.status
      ++ " to " ++ statusStr new_status]
  { e with
    status := new_status
    logs := logs2
    queued_at :=
      if new_status = .QUEUED ∧ e.queued_at = none then some now else e.queued_at
    processing_started_at :=
      if new_status = .PROCESSING ∧ e.processing_started_at = none then some now
      else e.processing_started_at
    call_started_at :=
      if new_status = .CALLING ∧ e.call_started_at = none then some now
      else e.call_started_at
    completed_at :=
      if (new_status = .COMPLETED ∨ new_status = .FAILED ∨ new_status = .CANCELLED)
          ∧ e.completed_at = none then some now
      else e.completed_at
    updated_at := now }

/-- Mirrors NetworkRequestEvent.set_result: store the response triple, log,
then update_status(COMPLETED). -/
def set_result (e : NetworkRequestEvent) (status_code : Nat)
    (headers : Option String) (body : Option String) (now : Nat) :
    NetworkRequestEvent :=
  let e1 := { e with
    response_status_code := some status_code
    response_headers := headers
    response_body := body }
  let e2 := add_log e1 now ("Call completed with status code: " ++ toString status_code)
  update_status e2 .COMPLETED now

/-- Mirrors NetworkRequestEvent.set_error: store the exception's type name,
message and traceback, log, then update_status(FAILED). -/
def set_error (e : NetworkRequestEvent) (ty msg tb : String) (now : Nat) :
    NetworkRequestEvent :=
  let e1 := { e with
    error_type := some ty
    error_message := some msg
    error_details := some tb }
  let e2 := add_log e1 now ("Call failed: " ++ ty ++ " - " ++ msg)
  update_status e2 .FAILED now

/-! ## Sequences of the event's public operations -/

inductive EventOp where
  | update (s : RequestStatus)
  | result (status_code : Nat) (headers : Option String) (body : Option String)
  | err (ty msg tb : String)
deriving DecidableEq, Repr

def EventOp.isResult : EventOp → Bool
  | .result _ _ _ => true
  | _ => false

def EventOp.isErr : EventOp → Bool
  | .err _ _ _ => true
  | _ => false

/-- Apply one public operation at a given clock value. -/
def applyOp (e : NetworkRequestEvent) : EventOp × Nat → NetworkRequestEvent
  | (.update s, now) => update_status e s now
  | (.result c h b, now) => set_result e c h b now
  | (.err t m tb, now) => set_error e t m tb now

/-- Run a sequence of public operations from left to right. -/
def runOps (e : NetworkRequestEvent) (ops : List (EventOp × Nat)) :
    NetworkRequestEvent :=
  ops.foldl applyOp e

/-! ## Frame and monotonicity lemmas for event operations -/

theorem update_status_error_frame (e : NetworkRequestEvent) (s : RequestStatus)
    (now : Nat) :
    (update_status e s now).error_type = e.error_type ∧
    (update_status e s now).error_message = e.error_message ∧
    (update_status e s now).error_details = e.error_details :=
  ⟨rfl, rfl, rfl⟩

theorem update_status_response_frame (e : NetworkRequestEvent) (s : RequestStatus)
    (now : Nat) :
    (update_status e s now).response_status_code = e.response_status_code ∧
    (update_status e s now).response_headers = e.response_headers ∧
    (update_status e s now).response_body = e.response_body :=
  ⟨rfl, rfl, rfl⟩

theorem applyOp_error_frame (e : NetworkRequestEvent) (p : EventOp × Nat)
    (h : p.1.isErr = false) :
    (applyOp e p).error_type = e.error_type ∧
    (applyOp e p).error_message = e.error_message ∧
    (applyOp e p).error_details = e.error_details := by
  obtain ⟨op, now⟩ := p
  cases op with
  | update s => exact ⟨rfl, rfl, rfl⟩
  | result c hd b => exact ⟨rfl, rfl, rfl⟩
  | err t m tb => simp [EventOp.isErr] at h

theorem applyOp_response_frame (e : NetworkRequestEvent) (p : EventOp × Nat)
    (h : p.1.isResult = false) :
    (applyOp e p).response_status_code = e.response_status_code ∧
    (applyOp e p).response_headers = e.response_headers ∧
    (applyOp e p).response_body = e.response_body := by
  obtain ⟨op, now⟩ := p
  cases op with
  | update s => exact ⟨rfl, rfl, rfl⟩
  | result c hd b => simp [EventOp.isResult] at h
  | err t m tb => exact ⟨rfl, rfl, rfl⟩

theorem applyOp_rsc_mono (e : NetworkRequestEvent) (p : EventOp × Nat)
    (h : e.response_status_code.isSome = true) :
    (applyOp e p).response_status_code.isSome = true := by
  obtain ⟨op, now⟩ := p
  cases op with
  | update s => exact h
  | result c hd b => rfl
  | err t m tb => exact h

theorem applyOp_error_mono (e : NetworkRequestEvent) (p : EventOp × Nat)
    (h : e.error_type.isSome = true ∧ e.error_message.isSome = true ∧
      e.error_details.isSome = true) :
    (applyOp e p).error_type.isSome = true ∧
    (applyOp e p).error_message.isSome = true ∧
    (applyOp e p).error_details.isSome = true := by
  obtain ⟨op, now⟩ := p
  cases op with
  | update s => exact h
  | result c hd b => exact h
  | err t m tb => exact ⟨rfl, rfl, rfl⟩

theorem runOps_rsc_mono (ops : List (EventOp × Nat)) :
    ∀ e : NetworkRequestEvent, e.response_status_code.isSome = true →
      (runOps e ops).response_status_code.isSome = true := by
  induction ops with
  | nil => intro e h; exact h
  | cons p rest ih =>
    intro e h
    exact ih (applyOp e p) (applyOp_rsc_mono e p h)

theorem runOps_error_mono (ops : List (EventOp × Nat)) :
    ∀ e : NetworkRequestEvent,
      e.error_type.isSome = true ∧ e.error_message.isSome = true ∧
        e.error_details.isSome = true →
      (runOps e ops).error_type.isSome = true ∧
        (runOps e ops).error_message.isSome = true ∧
        (runOps e ops).error_details.isSome = true := by
  induction ops with
  | nil => intro e h; exact h
  | cons p rest ih =>
    intro e h
    exact ih (applyOp e p) (applyOp_error_mono e p h)

theorem runOps_error_frame (ops : List (EventOp × Nat)) :
    ∀ e : NetworkRequestEvent, (∀ p ∈ ops, p.1.isErr = false) →
      (runOps e ops).error_type = e.error_type ∧
        (runOps e ops).error_message = e.error_message ∧
        (runOps e ops).error_details = e.error_details := by
  induction ops with
  | nil => intro e _; exact ⟨rfl, rfl, rfl⟩
  | cons p rest ih =>
    intro e h
    obtain ⟨h1, h2, h3⟩ := ih (applyOp e p) (fun q hq => h q (List.mem_cons_of_mem p hq))
    obtain ⟨g1, g2, g3⟩ := applyOp_error_frame e p (h p (List.mem_cons_self p rest))
    exact ⟨h1.trans g1, h2.trans g2, h3.trans g3⟩

theorem runOps_response_frame (ops : List (EventOp × Nat)) :
    ∀ e : NetworkRequestEvent, (∀ p ∈ ops, p.1.isResult = false) →
      (runOps e ops).response_status_code = e.response_status_code ∧
        (runOps e ops).response_headers = e.response_headers ∧
        (runOps e ops).response_body = e.response_body := by
  induction ops with
  | nil => intro e _; exact ⟨rfl, rfl, rfl⟩
  | cons p rest ih =>
    intro e h
    obtain ⟨h1, h2, h3⟩ := ih (applyOp e p) (fun q hq => h q (List.mem_cons_of_mem p hq))
    obtain ⟨g1, g2, g3⟩ := applyOp_response_frame e p (h p (List.mem_cons_self p rest))
    exact ⟨h1.trans g1, h2.trans g2, h3.trans g3⟩

theorem runOps_rsc_of_result (ops : List (EventOp × Nat)) :
    ∀ e : NetworkRequestEvent, (∃ p ∈ ops, p.1.isResult = true) →
      (runOps e ops).response_status_code.isSome = true := by
  induction ops with
  | nil => intro e h; obtain ⟨p, hp, _⟩ := h; exact absurd hp (List.not_mem_nil p)
  | cons p rest ih =>
    intro e h
    obtain ⟨q, hq, hres⟩ := h
    rcases List.mem_cons.mp hq with hq | hq
    · subst hq
      exact runOps_rsc_mono rest (applyOp e q) (by
        obtain ⟨op, now⟩ := q
        cases op with
        | update s => simp [EventOp.isResult] at hres
        | result c hd b => rfl
        | err t m tb => simp [EventOp.isResult] at hres)
    · exact ih (applyOp e p) ⟨q, hq, hres⟩

theorem runOps_error_of_err (ops : List (EventOp × Nat)) :
    ∀ e : NetworkRequestEvent, (∃ p ∈ ops, p.1.isErr = true) →
      (runOps e ops).error_type.isSome = true ∧
        (runOps e ops).error_message.isSome = true ∧
        (runOps e ops).error_details.isSome = true := by
  induction ops with
  | nil => intro e h; obtain ⟨p, hp, _⟩ := h; exact absurd hp (List.not_mem_nil p)
  | cons p rest ih =>
    intro e h
    obtain ⟨q, hq, herr⟩ := h
    rcases List.mem_cons.mp hq with hq | hq
    · subst hq
      refine runOps_error_mono rest (applyOp e q) ?_
      obtain ⟨op, now⟩ := q
      cases op with
      | update s => simp [EventOp.isErr] at herr
      | result c hd b => simp [EventOp.isErr] at herr
      | err t m tb => exact ⟨rfl, rfl, rfl⟩
    · exact ih (applyOp e p) ⟨q, hq, herr⟩

/-- C2 (amended): for sequences of public operations on a fresh event, a
sequence containing a set_result and no set_error leaves the response
status code populated and all error fields empty, and a sequence containing
a set_error and no set_result leaves all error fields populated and all
response fields empty.  The unamended claim fails because update_status can
set COMPLETED or FAILED directly without populating anything. -/
theorem c2_terminal_field_exclusivity (rid : String) (ops : List (EventOp × Nat)) :
    ((∃ p ∈ ops, p.1.isResult = true) → (∀ p ∈ ops, p.1.isErr = false) →
      (runOps (initEvent rid) ops).response_status_code.isSome = true ∧
      (runOps (initEvent rid) ops).error_type = none ∧
      (runOps (initEvent rid) ops).error_message = none ∧
      (runOps (initEvent rid) ops).error_details = none) ∧
    ((∃ p ∈ ops, p.1.isErr = true) → (∀ p ∈ ops, p.1.isResult = false) →
      (runOps (initEvent rid) ops).error_type.isSome = true ∧
      (runOps (initEvent rid) ops).error_message.isSome = true ∧
      (runOps (initEvent rid) ops).error_details.isSome = true ∧
      (runOps (initEvent rid) ops).response_status_code = none ∧
      (runOps (initEvent rid) ops).response_headers = none ∧
      (runOps (initEvent rid) ops).response_body = none) := by
  constructor
  · intro hres hnoerr
    obtain ⟨f1, f2, f3⟩ := runOps_error_frame ops (initEvent rid) hnoerr
    exact ⟨runOps_rsc_of_result ops (initEvent rid) hres, f1, f2, f3⟩
  · intro herr hnores
    obtain ⟨f1, f2, f3⟩ := runOps_response_frame ops (initEvent rid) hnores
    obtain ⟨g1, g2, g3⟩ := runOps_error_of_err ops (initEvent rid) herr
    exact ⟨g1, g2, g3, f1, f2, f3⟩

/-- Witness for C2 (amended), at the two concrete one-operation sequences
consisting of a single set_result and a single set_error. -/
theorem c2_terminal_field_exclusivity_witness :
    ((runOps (initEvent "r") [(.result 200 none none, 0)]).response_status_code.isSome
        = true ∧
      (runOps (initEvent "r") [(.result 200 none none, 0)]).error_type = none ∧
      (runOps (initEvent "r") [(.result 200 none none, 0)]).error_message = none ∧
      (runOps (initEvent "r") [(.result 200 none none, 0)]).error_details = none) ∧
    ((runOps (initEvent "r") [(.err "E" "m" "tb", 0)]).error_type.isSome = true ∧
      (runOps (initEvent "r") [(.err "E" "m" "tb", 0)]).error_message.isSome = true ∧
      (runOps (initEvent "r") [(.err "E" "m" "tb", 0)]).error_details.isSome = true ∧
      (runOps (initEvent "r") [(.err "E" "m" "tb", 0)]).response_status_code = none ∧
      (runOps (initEvent "r") [(.err "E" "m" "tb", 0)]).response_headers = none ∧
      (runOps (initEvent "r") [(.err "E" "m" "tb", 0)]).response_body = none) :=
  ⟨(c2_terminal_field_exclusivity "r" [(.result 200 none none, 0)]).1
      ⟨(.result 200 none none, 0), by decide, rfl⟩ (by decide),
    (c2_terminal_field_exclusivity "r" [(.err "E" "m" "tb", 0)]).2
      ⟨(.err "E" "m" "tb", 0), by decide, rfl⟩ (by decide)⟩

/-- C2 counterexample: after the single public operation
update_status(COMPLETED) on a fresh event, the status is COMPLETED yet
response_status_code is still none, refuting the claim that COMPLETED
implies populated response fields. -/
theorem c2_counterexample :
    (runOps (initEvent "r") [(.update .COMPLETED, 0)]).status = .COMPLETED ∧
    (runOps (initEvent "r") [(.update .COMPLETED, 0)]).response_status_code = none ∧
    (runOps (initEvent "r") [(.update .COMPLETED, 0)]).response_headers = none ∧
    (runOps (initEvent "r") [(.update .COMPLETED, 0)]).response_body = none :=
  ⟨rfl, rfl, rfl, rfl⟩

/-- C3 (amended): update_status performs no transition validation at all:
the status after the call is exactly the requested status, whatever the
previous status was, and the status after any operation sequence ending in
update_status(s) is s.  Monotonic progression is a discipline of the
callers, not an invariant enforced by the event. -/
theorem c3_update_status_unconditional (e : NetworkRequestEvent)
    (s : RequestStatus) (now : Nat) :
    (update_status e s now).status = s ∧
    ∀ ops : List (EventOp × Nat),
      (runOps e (ops ++ [(.update s, now)])).status = s := by
  refine ⟨rfl, fun ops => ?_⟩
  rw [runOps, List.foldl_append]
  rfl

/-- C3 counterexample: a fresh event moved to the terminal status COMPLETED
and then back to PENDING by the public operation update_status, refuting
monotonicity and terminal-state stability. -/
theorem c3_counterexample :
    (runOps (initEvent "r") [(.update .COMPLETED, 0)]).status = .COMPLETED ∧
    (runOps (initEvent "r") [(.update .COMPLETED, 0), (.update .PENDING, 1)]).status
      = .PENDING :=
  ⟨rfl, rfl⟩

/-! ## Timestamp write-once lemmas (C4) -/

theorem applyOp_queued_stable (e : NetworkRequestEvent) (p : EventOp × Nat)
    (t : Nat) (h : e.queued_at = some t) : (applyOp e p).queued_at = some t := by
  obtain ⟨op, now⟩ := p
  cases op with
  | update s => simp [applyOp, update_status, h]
  | result c hd b => simp [applyOp, set_result, add_log, update_status, h]
  | err ty m tb => simp [applyOp, set_error, add_log, update_status, h]

theorem applyOp_processing_stable (e : NetworkRequestEvent) (p : EventOp × Nat)
    (t : Nat) (h : e.processing_started_at = some t) :
    (applyOp e p).processing_started_at = some t := by
  obtain ⟨op, now⟩ := p
  cases op with
  | update s => simp [applyOp, update_status, h]
  | result c hd b => simp [applyOp, set_result, add_log, update_status, h]
  | err ty m tb => simp [applyOp, set_error, add_log, update_status, h]

theorem applyOp_call_stable (e : NetworkRequestEvent) (p : EventOp × Nat)
    (t : Nat) (h : e.call_started_at = some t) :
    (applyOp e p).call_started_at = some t := by
  obtain ⟨op, now⟩ := p
  cases op with
  | update s => simp [applyOp, update_status, h]
  | result c hd b => simp [applyOp, set_result, add_log, update_status, h]
  | err ty m tb => simp [applyOp, set_error, add_log, update_status, h]

theorem applyOp_completed_stable (e : NetworkRequestEvent) (p : EventOp × Nat)
    (t : Nat) (h : e.completed_at = some t) :
    (applyOp e p).completed_at = some t := by
  obtain ⟨op, now⟩ := p
  cases op with
  | update s => simp [applyOp, update_status, h]
  | result c hd b => simp [applyOp, set_result, add_log, update_status, h]
  | err ty m tb => simp [applyOp, set_error, add_log, update_status, h]

/-- C4: every timestamp field of a NetworkRequestEvent is write-once.  Once
queued_at, processing_started_at, call_started_at or completed_at holds a
value, no further sequence of public operations changes it — in particular
a later different terminal status does not overwrite completed_at — and
each field is assigned on the first transition into its state (QUEUED,
PROCESSING, CALLING, and the first terminal status respectively). -/
theorem c4_timestamps_write_once (e : NetworkRequestEvent)
    (ops : List (EventOp × Nat)) (t now : Nat) (s : RequestStatus) :
    (e.queued_at = some t → (runOps e ops).queued_at = some t) ∧
    (e.processing_started_at = some t →
      (runOps e ops).processing_started_at = some t) ∧
    (e.call_started_at = some t → (runOps e ops).call_started_at = some t) ∧
    (e.completed_at = some t → (runOps e ops).completed_at = some t) ∧
    (e.queued_at = none → (update_status e .QUEUED now).queued_at = some now) ∧
    (e.processing_started_at = none →
      (update_status e .PROCESSING now).processing_started_at = some now) ∧
    (e.call_started_at = none →
      (update_status e .CALLING now).call_started_at = some now) ∧
    ((s = .COMPLETED ∨ s = .FAILED ∨ s = .CANCELLED) → e.completed_at = none →
      (update_status e s now).completed_at = some now) := by
  refine ⟨?_, ?_, ?_, ?_, ?_, ?_, ?_, ?_⟩
  · induction ops generalizing e with
    | nil => intro h; exact h
    | cons p rest ih => intro h; exact ih (applyOp e p) (applyOp_queued_stable e p t h)
  · induction ops generalizing e with
    | nil => intro h; exact h
    | cons p rest ih =>
      intro h; exact ih (applyOp e p) (applyOp_processing_stable e p t h)
  · induction ops generalizing e with
    | nil => intro h; exact h
    | cons p rest ih => intro h; exact ih (applyOp e p) (applyOp_call_stable e p t h)
  · induction ops generalizing e with
    | nil => intro h; exact h
    | cons p rest ih =>
      intro h; exact ih (applyOp e p) (applyOp_completed_stable e p t h)
  · intro h; simp [update_status, h]
  · intro h; simp [update_status, h]
  · intro h; simp [update_status, h]
  · intro hs h
    rcases hs with hs | hs | hs <;> subst hs <;> simp [update_status, h]

/-- An event whose four timestamps are already populated, for the C4
witness. -/
def evAllTimestamps : NetworkRequestEvent :=
  { initEvent "r" with
    queued_at := some 3
    processing_started_at := some 3
    call_started_at := some 3
    completed_at := some 3 }

/-- Witness for C4 at concrete inputs: the populated timestamps of
evAllTimestamps survive a further terminal transition, and a fresh event
acquires each timestamp on the first transition into the matching state. -/
theorem c4_timestamps_write_once_witness :
    (runOps evAllTimestamps [(.update .FAILED, 9)]).queued_at = some 3 ∧
    (runOps evAllTimestamps [(.update .FAILED, 9)]).processing_started_at = some 3 ∧
    (runOps evAllTimestamps [(.update .FAILED, 9)]).call_started_at = some 3 ∧
    (runOps evAllTimestamps [(.update .FAILED, 9)]).completed_at = some 3 ∧
    (update_status (initEvent "r") .QUEUED 7).queued_at = some 7 ∧
    (update_status (initEvent "r") .PROCESSING 7).processing_started_at = some 7 ∧
    (update_status (initEvent "r") .CALLING 7).call_started_at = some 7 ∧
    (update_status (initEvent "r") .CANCELLED 7).completed_at = some 7 := by
  obtain ⟨h1, h2, h3, h4, -, -, -, -⟩ :=
    c4_timestamps_write_once evAllTimestamps [(.update .FAILED, 9)] 3 7 .CANCELLED
  obtain ⟨-, -, -, -, g1, g2, g3, g4⟩ :=
    c4_timestamps_write_once (initEvent "r") [] 3 7 .CANCELLED
  exact ⟨h1 rfl, h2 rfl, h3 rfl, h4 rfl, g1 rfl, g2 rfl, g3 rfl,
    g4 (Or.inr (Or.inr rfl)) rfl⟩

/-! ## AsyncAPIClient state (client.py)

The client's mutable state is base configuration plus the cached httpx
client and the closed flag.  The asyncio session lock only serializes
access; in this sequential model each operation is one atomic step. -/

structure HttpxClient where
  base_url : String
  timeout : Nat
  headers : List (String × String)
deriving DecidableEq, Repr

structure AsyncAPIClient where
  base_url : String
  timeout : Nat
  headers : List (String × String)
  _client : Option HttpxClient
  _closed : Bool
deriving DecidableEq, Repr

/-- Mirrors AsyncAPIClient.__init__: stores the configuration, the
optional externally supplied client, and starts not closed. -/
def mkClient (base_url : String) (timeout : Nat)
    (headers : List (String × String)) (client : Option HttpxClient) :
    AsyncAPIClient :=
  { base_url := base_url, timeout := timeout, headers := headers
    _client := client, _closed := false }

/-- Mirrors AsyncAPIClient._get_client.  Raises RuntimeError when closed,
returns the cached client when present, otherwise constructs the httpx
client from the stored configuration and caches it.  The returned Bool
records whether an httpx.AsyncClient construction happened on this call;
the lock's double-checked branch collapses to this in a sequential model. -/
def _get_client (self : AsyncAPIClient) :
    Except String (AsyncAPIClient × HttpxClient × Bool) :=
  if self._closed then .error "Client is closed"
  else
    match self._client with
    | some c => .ok (self, c, false)
    | none =>
      let c : HttpxClient :=
        { base_url := self.base_url, timeout := self.timeout, headers := self.headers }
      .ok ({ self with _client := some c }, c, true)

/-- External effect of close: the aclose call on the underlying httpx
client. -/
inductive CloseAction where
  | aclose (c : HttpxClient)
deriving DecidableEq, Repr

/-- Mirrors AsyncAPIClient.close: a no-op when already closed, otherwise
acloses the cached client (when present), clears it, and marks closed. -/
def close (self : AsyncAPIClient) : AsyncAPIClient × List CloseAction :=
  if self._closed then (self, [])
  else
    match self._client with
    | some c => ({ self with _client := none, _closed := true }, [.aclose c])
    | none => ({ self with _closed := true }, [])

/-- Calling close n times in a row, accumulating the external effects. -/
def closeTimes : Nat → AsyncAPIClient → AsyncAPIClient × List CloseAction
  | 0, s => (s, [])
  | n + 1, s =>
    let r1 := close s
    let r2 := closeTimes n r1.1
    (r2.1, r1.2 ++ r2.2)

/-! ## Error taxonomy and the request status-to-error mapping (client.py)

Modelled from the spec: the error classes live in errors.py, which is not
part of the sources at hand (only client.py's raise sites and the tests
reference it).  Per the spec, every status-derived error carries a human
message, the status code and the raw response content, and the rate-limit
error additionally carries the optional retry_after seconds; the
constructor arguments below mirror the raise sites in client.py. -/

inductive APIError where
  | APIConnectionError (msg : String)
  | APITimeoutError (msg : String)
  | AuthenticationError (msg : String) (status_code : Nat) (response_content : String)
  | ResourceNotFoundError (msg : String) (status_code : Nat) (response_content : String)
  | RateLimitError (msg : String) (status_code : Nat) (response_content : String)
      (retry_after : Option ℚ)
  | ServerError (msg : String) (status_code : Nat) (response_content : String)
  | APIClientError (msg : String) (status_code : Option Nat)
      (response_content : Option String)
deriving DecidableEq, Repr

/-- What a request call can raise: the RuntimeError escaping _get_client
(raised before the try block of _make_request, hence never wrapped), or
one of the APIError kinds. -/
inductive RequestError where
  | runtime (msg : String)
  | api (e : APIError)
deriving DecidableEq, Repr

/-- The outcome of the underlying httpx call, the nondeterministic input
of _make_request.  For a response, detail models the json()/get("detail")
attempt on the error body: none means the body was not valid JSON, some
none means valid JSON without a detail key, some (some d) means a detail
value d; strE models str(e) for the HTTPStatusError. -/
inductive HttpOutcome where
  | connectError (estr : String)
  | timedOut (estr : String)
  | response (status : Nat) (headers : List (String × String)) (content : String)
      (detail : Option (Option String)) (strE : String)
deriving DecidableEq, Repr

def lookupHeader (hs : List (String × String)) (k : String) : Option String :=
  (hs.find? (fun p => p.1 == k)).map Prod.snd

/-- Mirrors error_message = response_data.get("detail", str(e)) with the
fallback to the raw text when the body is not JSON. -/
def errorMessageOf (content : String) (detail : Option (Option String))
    (strE : String) : String :=
  match detail with
  | none => content
  | some (some d) => d
  | some none => strE

/-- Mirrors the status-code dispatch of the httpx.HTTPStatusError handler
in AsyncAPIClient.request._make_request.  parseFloat models Python's
float() on the Retry-After header value, returning none when it raises
ValueError/TypeError (suppressed in the source, leaving retry_after None). -/
def mapHTTPStatusError (parseFloat : String → Option ℚ) (status_code : Nat)
    (headers : List (String × String)) (response_content : String)
    (error_message : String) : APIError :=
  if status_code = 401 then
    .AuthenticationError ("Authentication error: " ++ error_message)
      status_code response_content
  else if status_code = 404 then
    .ResourceNotFoundError ("Resource not found: " ++ error_message)
      status_code response_content
  else if status_code = 429 then
    .RateLimitError ("Rate limit exceeded: " ++ error_message)
      status_code response_content
      ((lookupHeader headers "Retry-After").bind parseFloat)
  else if 500 ≤ status_code ∧ status_code < 600 then
    .ServerError ("Server error: " ++ error_message) status_code response_content
  else
    .APIClientError ("API error: " ++ error_message) (some status_code)
      (some response_content)

/-- Mirrors _make_request: _get_client runs before the try block, so a
RuntimeError from a closed client propagates unwrapped; a 2xx response
returns its parsed body (kept abstract as the content string); any other
status goes through the HTTPStatusError mapping; connect failures and
timeouts map to their dedicated error kinds.  httpx raise_for_status
raises exactly when the status is not in [200, 300). -/
def _make_request (parseFloat : String → Option ℚ) (self : AsyncAPIClient)
    (outcome : HttpOutcome) : Except RequestError (AsyncAPIClient × String) :=
  match _get_client self with
  | .error msg => .error (.runtime msg)
  | .ok (self', _, _) =>
    match outcome with
    | .connectError estr => .error (.api (.APIConnectionError ("Connection error: " ++ estr)))
    | .timedOut estr => .error (.api (.APITimeoutError ("Request timed out: " ++ estr)))
    | .response status headers content detail strE =>
      if 200 ≤ status ∧ status < 300 then .ok (self', content)
      else
        .error (.api (mapHTTPStatusError parseFloat status headers content
          (errorMessageOf content detail strE)))

/-- Mirrors AsyncAPIClient.request with retry_config and circuit_breaker
left at their None defaults: the request awaits _make_request directly. -/
def request (parseFloat : String → Option ℚ) (self : AsyncAPIClient)
    (outcome : HttpOutcome) : Except RequestError (AsyncAPIClient × String) :=
  _make_request parseFloat self outcome

/-- The httpx client that _get_client constructs from the stored
configuration. -/
def constructedHttpx (self : AsyncAPIClient) : HttpxClient :=
  { base_url := self.base_url, timeout := self.timeout, headers := self.headers }

/-! ## C1: status-to-error mapping -/

/-- C1: on a non-2xx response the raised error kind is determined by the
status code — 401 authentication, 404 not-found, 429 rate-limit carrying
Retry-After parsed as float seconds (none when the header is absent or
float() fails on it), [500,600) server error, any other 4xx the generic
API client error — a connect failure raises the connection error, a
timeout the timeout error, and every status-derived error carries the
status code and the raw response content. -/
theorem c1_status_error_mapping (pf : String → Option ℚ) (self : AsyncAPIClient)
    (h : self._closed = false) (status : Nat) (headers : List (String × String))
    (content : String) (detail : Option (Option String)) (strE estr : String) :
    (∃ m, request pf self (.connectError estr)
        = .error (.api (.APIConnectionError m))) ∧
    (∃ m, request pf self (.timedOut estr) = .error (.api (.APITimeoutError m))) ∧
    (¬(200 ≤ status ∧ status < 300) →
      ∃ err, request pf self (.response status headers content detail strE)
          = .error (.api err) ∧
        (status = 401 → ∃ m, err = .AuthenticationError m status content) ∧
        (status = 404 → ∃ m, err = .ResourceNotFoundError m status content) ∧
        (status = 429 → ∃ m, err = .RateLimitError m status content
            ((lookupHeader headers "Retry-After").bind pf)) ∧
        (500 ≤ status ∧ status < 600 → ∃ m, err = .ServerError m status content) ∧
        (400 ≤ status ∧ status < 500 ∧ status ≠ 401 ∧ status ≠ 404 ∧ status ≠ 429 →
          ∃ m, err = .APIClientError m (some status) (some content))) := by
  have hget : ∃ s' c b, _get_client self = .ok (s', c, b) := by
    cases hc : self._client with
    | none =>
      exact ⟨{ self with _client := some (constructedHttpx self) },
        constructedHttpx self, true, by simp [_get_client, constructedHttpx, h, hc]⟩
    | some c => exact ⟨self, c, false, by simp [_get_client, h, hc]⟩
  obtain ⟨s', c, b, hg⟩ := hget
  refine ⟨⟨"Connection error: " ++ estr, by simp [request, _make_request, hg]⟩,
    ⟨"Request timed out: " ++ estr, by simp [request, _make_request, hg]⟩,
    fun h2xx => ?_⟩
  refine ⟨mapHTTPStatusError pf status headers content
      (errorMessageOf content detail strE),
    by simp [request, _make_request, hg, if_neg h2xx], ?_, ?_, ?_, ?_, ?_⟩
  · intro h401; subst h401
    exact ⟨"Authentication error: " ++ errorMessageOf content detail strE,
      by simp [mapHTTPStatusError]⟩
  · intro h404; subst h404
    exact ⟨"Resource not found: " ++ errorMessageOf content detail strE,
      by simp [mapHTTPStatusError]⟩
  · intro h429; subst h429
    exact ⟨"Rate limit exceeded: " ++ errorMessageOf content detail strE,
      by simp [mapHTTPStatusError]⟩
  · intro h5xx
    refine ⟨"Server error: " ++ errorMessageOf content detail strE, ?_⟩
    unfold mapHTTPStatusError
    rw [if_neg (by omega), if_neg (by omega), if_neg (by omega), if_pos h5xx]
  · intro h4xx
    obtain ⟨hlo, hhi, hn1, hn4, hn9⟩ := h4xx
    refine ⟨"API error: " ++ errorMessageOf content detail strE, ?_⟩
    unfold mapHTTPStatusError
    rw [if_neg hn1, if_neg hn4, if_neg hn9, if_neg (by omega)]

/-- Float parsing model that accepts exactly the string 30, for the C1
witness. -/
def pfThirty : String → Option ℚ :=
  fun s => if s = "30" then some 30 else none

/-- A freshly constructed client with no externally supplied httpx
client. -/
def clientFresh : AsyncAPIClient := mkClient "https://api.example.com" 10 [] none

/-- Witness for C1: a 429 response with a Retry-After header of 30 yields
the rate-limit error carrying retry_after 30, the status code and the raw
content. -/
theorem c1_status_error_mapping_witness :
    ∃ err, request pfThirty clientFresh
        (.response 429 [("Retry-After", "30")] "body" none "e")
        = .error (.api err) ∧
      ∃ m, err = .RateLimitError m 429 "body" (some 30) := by
  obtain ⟨-, -, h3⟩ := c1_status_error_mapping pfThirty clientFresh rfl 429
    [("Retry-After", "30")] "body" none "e" "x"
  obtain ⟨err, heq, -, -, h429, -, -⟩ := h3 (by omega)
  obtain ⟨m, hm⟩ := h429 rfl
  refine ⟨err, heq, m, ?_⟩
  rw [hm]
  rfl

/-! ## C6: close idempotence and rejection after close -/

theorem close_sets_closed (s : AsyncAPIClient) : (close s).1._closed = true := by
  cases hb : s._closed with
  | true => simp [close, hb]
  | false => cases hc : s._client <;> simp [close, hb, hc]

theorem close_of_closed (s : AsyncAPIClient) (h : s._closed = true) :
    close s = (s, []) := by
  simp [close, h]

theorem closeTimes_closed (m : Nat) (s : AsyncAPIClient) (h : s._closed = true) :
    closeTimes m s = (s, []) := by
  induction m with
  | zero => rfl
  | succ k ih => simp [closeTimes, close_of_closed s h, ih]

/-- C6: close() called n ≥ 1 times has exactly the state and the external
effects of one close, and on the closed client both _get_client and
request raise RuntimeError instead of returning a client. -/
theorem c6_close_idempotent (self : AsyncAPIClient) (n : Nat) (h : 1 ≤ n)
    (pf : String → Option ℚ) (outcome : HttpOutcome) :
    closeTimes n self = close self ∧
    (close self).1._closed = true ∧
    _get_client (close self).1 = .error "Client is closed" ∧
    request pf (close self).1 outcome = .error (.runtime "Client is closed") := by
  have hcl := close_sets_closed self
  refine ⟨?_, hcl, ?_, ?_⟩
  · cases n with
    | zero => omega
    | succ m =>
      simp [closeTimes, closeTimes_closed m (close self).1 hcl]
  · simp [_get_client, hcl]
  · simp [request, _make_request, _get_client, hcl]

/-- Witness for C6: two closes of a fresh client equal one close, and the
closed client rejects _get_client and request. -/
theorem c6_close_idempotent_witness :
    closeTimes 2 clientFresh = close clientFresh ∧
    (close clientFresh).1._closed = true ∧
    _get_client (close clientFresh).1 = .error "Client is closed" ∧
    request pfThirty (close clientFresh).1 (.connectError "x")
      = .error (.runtime "Client is closed") :=
  c6_close_idempotent clientFresh 2 (by omega) pfThirty (.connectError "x")

/-! ## C7: lazy construction and caching of the httpx client -/

/-- C7: for a client constructed without an externally supplied httpx
client, the first _get_client call constructs the httpx client from the
stored configuration and caches it, and every later _get_client call while
not closed returns that identical cached instance without constructing a
new one. -/
theorem c7_get_client_cached (self : AsyncAPIClient) (h1 : self._closed = false)
    (h2 : self._client = none) :
    ∃ (self' : AsyncAPIClient) (c : HttpxClient),
      _get_client self = .ok (self', c, true) ∧
      self'._client = some c ∧ self'._closed = false ∧
      _get_client self' = .ok (self', c, false) ∧
      ∀ s : AsyncAPIClient, s._closed = false → s._client = some c →
        _get_client s = .ok (s, c, false) := by
  refine ⟨{ self with _client := some (constructedHttpx self) },
    constructedHttpx self, ?_, rfl, h1, ?_, ?_⟩
  · simp [_get_client, constructedHttpx, h1, h2]
  · simp [_get_client, h1]
  · intro s hs hc
    simp [_get_client, hs, hc]

/-- Witness for C7 on a concrete freshly constructed client. -/
theorem c7_get_client_cached_witness :
    ∃ (self' : AsyncAPIClient) (c : HttpxClient),
      _get_client clientFresh = .ok (self', c, true) ∧
      self'._client = some c ∧ self'._closed = false ∧
      _get_client self' = .ok (self', c, false) ∧
      ∀ s : AsyncAPIClient, s._closed = false → s._client = some c →
        _get_client s = .ok (s, c, false) :=
  c7_get_client_cached clientFresh rfl rfl

/-! ## Python values and dicts (for AsyncAPIClient.call and alcall) -/

inductive PyVal where
  | vNone
  | vStr (s : String)
  | vNat (n : Nat)
  | vList (xs : List PyVal)
  | vTuple (xs : List PyVal)

/-- A Python dict as an insertion-ordered association list with unique
keys. -/
abbrev PyDict := List (String × PyVal)

def hasKey (d : PyDict) (k : String) : Bool :=
  d.any (fun p => p.1 == k)

def dictLookup (d : PyDict) (k : String) : Option PyVal :=
  (d.find? (fun p => p.1 == k)).map Prod.snd

def dictErase (d : PyDict) (k : String) : PyDict :=
  d.filter (fun p => !(p.1 == k))

/-- The value part of dict.pop(k, default). -/
def popVal (d : PyDict) (k : String) (dflt : PyVal) : PyVal :=
  (dictLookup d k).getD dflt

/-- The dict left behind by dict.pop(k, default): the entry for k is
removed when present. -/
def popDict (d : PyDict) (k : String) : PyDict :=
  match dictLookup d k with
  | some _ => dictErase d k
  | none => d

/-- Assignment d[k] = v; position of an existing key is irrelevant to the
verified properties. -/
def dictSet (d : PyDict) (k : String) (v : PyVal) : PyDict :=
  dictErase d k ++ [(k, v)]

/-- The dict literal with the second dict's entries overriding the
first's. -/
def dictMerge (d1 d2 : PyDict) : PyDict :=
  d1.filter (fun p => !(hasKey d2 p.1)) ++ d2

/-- Models Python str.upper() on the ASCII method names as a per-character
uppercase map. -/
def pyUpper (s : String) : String :=
  ⟨s.data.map Char.toUpper⟩

/-- The outputs of AsyncAPIClient.call handed to self.request, plus the
state of the caller's request dict after the five destructive pops. -/
structure CallParts where
  method : String
  url : PyVal
  merged_kwargs : PyDict
  request_after : PyDict

/-- Mirrors AsyncAPIClient.call's argument extraction: pop method (default
GET, uppercased), url (default /), params, json and data from the
caller's dict in place, merge the remainder with kwargs, and re-add the
three optional parts when they are not None.  Returns none when the popped
method value is not a string, where Python would raise on .upper(). -/
def callParts (request kwargs : PyDict) : Option CallParts :=
  match popVal request "method" (.vStr "GET") with
  | .vStr m =>
    let r1 := popDict request "method"
    let u := popVal r1 "url" (.vStr "/")
    let r2 := popDict r1 "url"
    let p := popVal r2 "params" .vNone
    let r3 := popDict r2 "params"
    let j := popVal r3 "json" .vNone
    let r4 := popDict r3 "json"
    let dta := popVal r4 "data" .vNone
    let r5 := popDict r4 "data"
    let merged := dictMerge r5 kwargs
    let merged := match p with
      | .vNone => merged
      | v => dictSet merged "params" v
    let merged := match j with
      | .vNone => merged
      | v => dictSet merged "json" v
    let merged := match dta with
      | .vNone => merged
      | v => dictSet merged "data" v
    some { method := pyUpper m, url := u, merged_kwargs := merged
           request_after := r5 }
  | _ => none

/-! ## Dict lemmas -/

theorem hasKey_false_iff (d : PyDict) (k : String) :
    hasKey d k = false ↔ dictLookup d k = none := by
  simp [hasKey, dictLookup, List.any_eq_false, List.find?_eq_none,
    Option.map_eq_none']

theorem hasKey_erase_self (d : PyDict) (k : String) :
    hasKey (dictErase d k) k = false := by
  rw [hasKey, List.any_eq_false]
  intro p hp
  have h2 := (List.mem_filter.mp hp).2
  simpa using h2

theorem hasKey_popDict_self (d : PyDict) (k : String) :
    hasKey (popDict d k) k = false := by
  unfold popDict
  cases hlk : dictLookup d k with
  | none => exact (hasKey_false_iff d k).mpr hlk
  | some v => exact hasKey_erase_self d k

theorem hasKey_popDict_mono (d : PyDict) (k k' : String)
    (h : hasKey d k' = false) : hasKey (popDict d k) k' = false := by
  unfold popDict
  cases hlk : dictLookup d k with
  | none => exact h
  | some v =>
    rw [hasKey, List.any_eq_false]
    intro p hp
    rw [hasKey, List.any_eq_false] at h
    exact h p (List.mem_filter.mp hp).1

/-- C9: AsyncAPIClient.call mutates the caller-supplied request dict —
after the call the keys method, url, params, json and data are all absent
from it — and when method or url is absent the call defaults to method
GET (uppercased) and url /.  The hypothesis records that the method entry,
when present, is a string (otherwise Python's .upper() raises). -/
theorem c9_call_pops_request (request kwargs : PyDict)
    (hm : ∀ v, dictLookup request "method" = some v → ∃ s, v = PyVal.vStr s) :
    (callParts request kwargs).isSome = true ∧
    ∀ parts, callParts request kwargs = some parts →
      hasKey parts.request_after "method" = false ∧
      hasKey parts.request_after "url" = false ∧
      hasKey parts.request_after "params" = false ∧
      hasKey parts.request_after "json" = false ∧
      hasKey parts.request_after "data" = false ∧
      (hasKey request "method" = false → parts.method = "GET") ∧
      (hasKey request "url" = false → parts.url = .vStr "/") := by
  have h1 : hasKey (popDict (popDict (popDict (popDict (popDict request "method")
      "url") "params") "json") "data") "method" = false := by
    apply hasKey_popDict_mono; apply hasKey_popDict_mono; apply hasKey_popDict_mono
    apply hasKey_popDict_mono; exact hasKey_popDict_self request "method"
  have h2 : hasKey (popDict (popDict (popDict (popDict (popDict request "method")
      "url") "params") "json") "data") "url" = false := by
    apply hasKey_popDict_mono; apply hasKey_popDict_mono; apply hasKey_popDict_mono
    exact hasKey_popDict_self _ "url"
  have h3 : hasKey (popDict (popDict (popDict (popDict (popDict request "method")
      "url") "params") "json") "data") "params" = false := by
    apply hasKey_popDict_mono; apply hasKey_popDict_mono
    exact hasKey_popDict_self _ "params"
  have h4 : hasKey (popDict (popDict (popDict (popDict (popDict request "method")
      "url") "params") "json") "data") "json" = false := by
    apply hasKey_popDict_mono
    exact hasKey_popDict_self _ "json"
  have h5 : hasKey (popDict (popDict (popDict (popDict (popDict request "method")
      "url") "params") "json") "data") "data" = false :=
    hasKey_popDict_self _ "data"
  have hurl : hasKey request "url" = false →
      popVal (popDict request "method") "url" (.vStr "/") = .vStr "/" := by
    intro hu
    have hn : dictLookup (popDict request "method") "url" = none :=
      (hasKey_false_iff _ "url").mp (hasKey_popDict_mono request "method" "url" hu)
    simp [popVal, hn]
  cases hlk : dictLookup request "method" with
  | none =>
    have hpv : popVal request "method" (.vStr "GET") = .vStr "GET" := by
      simp [popVal, hlk]
    constructor
    · rw [callParts.eq_def, hpv]
      rfl
    · intro parts hp
      rw [callParts.eq_def, hpv] at hp
      injection hp with hrec
      subst hrec
      have hGET : pyUpper "GET" = "GET" := by decide
      exact ⟨h1, h2, h3, h4, h5, fun _ => hGET, hurl⟩
  | some v =>
    obtain ⟨s, rfl⟩ := hm v hlk
    have hpv : popVal request "method" (.vStr "GET") = .vStr s := by
      simp [popVal, hlk]
    constructor
    · rw [callParts.eq_def, hpv]
      rfl
    · intro parts hp
      rw [callParts.eq_def, hpv] at hp
      injection hp with hrec
      subst hrec
      refine ⟨h1, h2, h3, h4, h5, fun hman => ?_, hurl⟩
      exact absurd (((hasKey_false_iff request "method").mp hman).symm.trans hlk)
        (fun h => Option.noConfusion h)

/-- A concrete request dict without method and url entries. -/
def sampleRequest : PyDict := [("params", PyVal.vNat 1), ("extra", PyVal.vNat 2)]

/-- Witness for C9: on a concrete request dict lacking method and url, the
call succeeds, the five popped keys are absent afterwards, and the
defaults GET and / are used. -/
theorem c9_call_pops_request_witness :
    ∃ parts, callParts sampleRequest [] = some parts ∧
      hasKey parts.request_after "method" = false ∧
      hasKey parts.request_after "url" = false ∧
      hasKey parts.request_after "params" = false ∧
      hasKey parts.request_after "json" = false ∧
      hasKey parts.request_after "data" = false ∧
      parts.method = "GET" ∧ parts.url = .vStr "/" := by
  obtain ⟨hsome, hall⟩ :=
    c9_call_pops_request sampleRequest [] (fun v hv => Option.noConfusion hv)
  cases hp : callParts sampleRequest [] with
  | none => rw [hp] at hsome; exact absurd hsome (by simp)
  | some parts =>
    obtain ⟨a1, a2, a3, a4, a5, a6, a7⟩ := hall parts hp
    exact ⟨parts, rfl, a1, a2, a3, a4, a5, a6 rfl, a7 rfl⟩

/-! ## alcall retry loop (async_utils.py, execute_task) -/

/-- Mirrors retry_default and the module-level UNDEFINED sentinel
(PydanticUndefined) compared by identity in execute_task: undefined is the
sentinel meaning no default supplied, value v any other Python object —
a legitimate None included. -/
inductive RetryDefault (R : Type) where
  | undefined
  | value (v : R)

/-- Mirrors the while-true loop of alcall.execute_task for one item.
f k is the outcome of the (k+1)-th invocation of func on the item.
attempts counts raised exceptions so far and remaining = num_retries −
attempts counts the retries still allowed, mirroring the
attempts <= num_retries check after the increment.  The returned Nat is
the total number of invocations of func performed. -/
def executeTaskGo {E R : Type} (f : Nat → Except E R) (dflt : RetryDefault R) :
    (remaining attempts : Nat) → Except E R × Nat
  | remaining, attempts =>
    match f attempts with
    | .ok r => (.ok r, attempts + 1)
    | .error e =>
      match remaining with
      | rem + 1 => executeTaskGo f dflt rem (attempts + 1)
      | 0 =>
        match dflt with
        | .value v => (.ok v, attempts + 1)
        | .undefined => (.error e, attempts + 1)

/-- Mirrors execute_task: the loop starts with attempts = 0 and allows
num_retries retries after the first invocation. -/
def execute_task {E R : Type} (f : Nat → Except E R) (num_retries : Nat)
    (dflt : RetryDefault R) : Except E R × Nat :=
  executeTaskGo f dflt num_retries 0

theorem executeTaskGo_count_le {E R : Type} (f : Nat → Except E R)
    (dflt : RetryDefault R) :
    ∀ remaining attempts, (executeTaskGo f dflt remaining attempts).2
      ≤ attempts + remaining + 1 := by
  intro remaining
  induction remaining with
  | zero =>
    intro attempts
    unfold executeTaskGo
    cases hfa : f attempts with
    | ok r => simp
    | error e => cases dflt <;> simp
  | succ rem ih =>
    intro attempts
    unfold executeTaskGo
    cases hfa : f attempts with
    | ok r => simp
    | error e =>
      show (executeTaskGo f dflt rem (attempts + 1)).2 ≤ attempts + (rem + 1) + 1
      have h2 := ih (attempts + 1)
      omega

theorem executeTaskGo_first_ok {E R : Type} (f : Nat → Except E R)
    (dflt : RetryDefault R) (k : Nat) (r : R) (hk : f k = .ok r)
    (hbefore : ∀ j, j < k → (f j).isOk = false) :
    ∀ remaining attempts, attempts ≤ k → k ≤ attempts + remaining →
      executeTaskGo f dflt remaining attempts = (.ok r, k + 1) := by
  intro remaining
  induction remaining with
  | zero =>
    intro attempts hle hge
    have hak : attempts = k := by omega
    subst hak
    unfold executeTaskGo
    rw [hk]
  | succ rem ih =>
    intro attempts hle hge
    by_cases hak : attempts = k
    · subst hak
      unfold executeTaskGo
      rw [hk]
    · have hlt : attempts < k := by omega
      have hfail := hbefore attempts hlt
      unfold executeTaskGo
      cases hfa : f attempts with
      | ok r2 => rw [hfa] at hfail; simp [Except.isOk, Except.toBool] at hfail
      | error e => exact ih (attempts + 1) (by omega) (by omega)

/-- C5: for one item, the alcall retry loop with num_retries = n invokes
the supplied function at most 1 + n times, and when the first successful
invocation is attempt k (zero-based, within the attempt budget), the loop
returns that result after exactly k + 1 invocations, so no attempt k + 2
is ever made after a success. -/
theorem c5_retry_attempt_bound {E R : Type} (f : Nat → Except E R) (n : Nat)
    (d : RetryDefault R) (k : Nat) (r : R) :
    (execute_task f n d).2 ≤ 1 + n ∧
    (k ≤ n → f k = .ok r → (∀ j, j < k → (f j).isOk = false) →
      execute_task f n d = (.ok r, k + 1)) := by
  constructor
  · have := executeTaskGo_count_le f d n 0
    simpa [execute_task, Nat.add_comm] using this
  · intro hkn hk hbefore
    exact executeTaskGo_first_ok f d k r hk hbefore n 0 (by omega) (by omega)

/-- The function used by the C5 witness: fails on attempt 0, succeeds on
attempt 1. -/
def fRetrySample : Nat → Except String Nat :=
  fun j => if j = 1 then .ok 42 else .error "boom"

/-- Witness for C5: with num_retries = 2 the function succeeding on
attempt 1 is invoked exactly twice, within the bound of 3. -/
theorem c5_retry_attempt_bound_witness :
    (execute_task fRetrySample 2 .undefined).2 ≤ 1 + 2 ∧
    execute_task fRetrySample 2 .undefined = (.ok 42, 2) := by
  obtain ⟨hb, hs⟩ := c5_retry_attempt_bound fRetrySample 2 .undefined 1 42
  refine ⟨hb, hs (by omega) rfl ?_⟩
  intro j hj
  have hj0 : j = 0 := by omega
  subst hj0
  rfl

theorem executeTaskGo_all_fail {E R : Type} (f : Nat → Except E R)
    (es : Nat → E) (d : RetryDefault R) :
    ∀ remaining attempts,
      (∀ j, attempts ≤ j → j ≤ attempts + remaining → f j = .error (es j)) →
      executeTaskGo f d remaining attempts =
        ((match d with
          | .undefined => .error (es (attempts + remaining))
          | .value v => .ok v), attempts + remaining + 1) := by
  intro remaining
  induction remaining with
  | zero =>
    intro attempts h
    have hfa := h attempts (Nat.le_refl attempts) (by omega)
    unfold executeTaskGo
    rw [hfa]
    cases d <;> rfl
  | succ rem ih =>
    intro attempts h
    have hfa := h attempts (Nat.le_refl attempts) (by omega)
    unfold executeTaskGo
    rw [hfa]
    have hrec := ih (attempts + 1) (fun j h1 h2 => h j (by omega) (by omega))
    have harith : attempts + 1 + rem = attempts + (rem + 1) := by omega
    rw [harith] at hrec
    exact hrec

/-- C8: retry_default defaults to the UNDEFINED sentinel and is compared
by identity.  When the sentinel is in place and all 1 + n attempts fail,
the loop re-raises the exception of the last attempt; when any other value
is supplied — a legitimate None included — that value becomes the item's
result instead of raising, so an explicit None default is distinguished
from an absent one. -/
theorem c8_retry_default_sentinel {E R : Type} (f : Nat → Except E R) (n : Nat)
    (es : Nat → E) (hfail : ∀ j, j ≤ n → f j = .error (es j)) :
    execute_task f n .undefined = (.error (es n), n + 1) ∧
    ∀ v : R, execute_task f n (.value v) = (.ok v, n + 1) := by
  constructor
  · have := executeTaskGo_all_fail f es .undefined n 0
      (fun j h1 h2 => hfail j (by omega))
    simpa using this
  · intro v
    have := executeTaskGo_all_fail f es (.value v) n 0
      (fun j h1 h2 => hfail j (by omega))
    simpa using this

/-- The always-failing function for the C8 witness. -/
def fFailSample : Nat → Except String (Option Nat) :=
  fun _ => .error "boom"

/-- Witness for C8 with num_retries = 1: the sentinel re-raises the last
exception after 2 attempts, while an explicit None default (modelled by
the value none) is returned as the result. -/
theorem c8_retry_default_sentinel_witness :
    execute_task fFailSample 1 .undefined = (.error "boom", 2) ∧
    execute_task fFailSample 1 (.value none) = (.ok none, 2) := by
  obtain ⟨h1, h2⟩ := c8_retry_default_sentinel fFailSample 1 (fun _ => "boom")
    (fun j _ => rfl)
  exact ⟨h1, h2 none⟩

/-! ## to_list post-processing (utils.py, _process_list_inner)

In the PyVal universe: vList is the iterable that flattening descends
into; vStr and vTuple are skip types (flatten_tuple_set is False in the
alcall output path); vNone stands for None/PydanticUndefined, the values
dropna removes; vNat is any other scalar. -/

def isNoneV : PyVal → Bool
  | .vNone => true
  | _ => false

/-- Mirrors _process_list_inner with flatten_tuple_set False: drop None
values when dropna, descend into nested lists — splicing when flatten,
rebuilding the sublist (processed without flattening, as the source passes
current_flatten=False there) when not — and keep everything else as is. -/
def process_list (flatten dropna : Bool) : List PyVal → List PyVal
  | [] => []
  | item :: rest =>
    if dropna && isNoneV item then process_list flatten dropna rest
    else
      match item with
      | .vList xs =>
        if flatten then
          process_list flatten dropna xs ++ process_list flatten dropna rest
        else
          .vList (process_list false dropna xs) :: process_list flatten dropna rest
      | _ => item :: process_list flatten dropna rest
termination_by l => sizeOf l
decreasing_by
  all_goals simp_wf
  all_goals omega

theorem process_list_id_aux :
    ∀ (n : Nat) (l : List PyVal), sizeOf l ≤ n → process_list false false l = l := by
  intro n
  induction n with
  | zero =>
    intro l hl
    cases l with
    | nil => simp [process_list]
    | cons item rest =>
      simp [List.cons.sizeOf_spec] at hl
  | succ n ih =>
    intro l hl
    cases l with
    | nil => simp [process_list]
    | cons item rest =>
      have hr : sizeOf rest ≤ n := by
        simp [List.cons.sizeOf_spec] at hl
        omega
      cases item with
      | vNone => simp [process_list, isNoneV, ih rest hr]
      | vStr s => simp [process_list, isNoneV, ih rest hr]
      | vNat m => simp [process_list, isNoneV, ih rest hr]
      | vTuple xs => simp [process_list, isNoneV, ih rest hr]
      | vList xs =>
        have hx : sizeOf xs ≤ n := by
          simp [List.cons.sizeOf_spec, PyVal.vList.sizeOf_spec] at hl
          omega
        simp [process_list, isNoneV, ih xs hx, ih rest hr]

/-- to_list with flatten, dropna and unique all disabled is the structural
identity on a list of values. -/
theorem process_list_id (l : List PyVal) : process_list false false l = l :=
  process_list_id_aux (sizeOf l) l (Nat.le_refl _)

/-! ## alcall output assembly (async_utils.py lines 369-414) -/

/-- The indexed task results: execute_task returns (index, result) for the
item at each input position. -/
def indexedResults (f : PyVal → PyVal) (input : List PyVal) : List (Nat × PyVal) :=
  input.enum.map (fun p => (p.1, f p.2))

/-- Mirrors completed_results_with_indices.sort(key=lambda x: x[0]): a
comparison sort by the original index. -/
def sortByIdx (l : List (Nat × PyVal)) : List (Nat × PyVal) :=
  List.insertionSort (fun x y => x.1 ≤ y.1) l

/-- Mirrors the tail of alcall with flatten/dropna/unique off and no
retry_timing: take the gathered (index, result) pairs in whatever
completion order, sort by index, project the results, and post-process
with to_list. -/
def alcall_order_model (gathered : List (Nat × PyVal)) : List PyVal :=
  process_list false false ((sortByIdx gathered).map Prod.snd)

instance : IsTotal (Nat × PyVal) (fun x y => x.1 ≤ y.1) :=
  ⟨fun a b => Nat.le_total a.1 b.1⟩

instance : IsTrans (Nat × PyVal) (fun x y => x.1 ≤ y.1) :=
  ⟨fun _ _ _ h1 h2 => Nat.le_trans h1 h2⟩

instance : IsAntisymm (Nat × PyVal) (fun x y => x.1 < y.1) :=
  ⟨fun _ _ h1 h2 => absurd h2 (Nat.lt_asymm h1)⟩

/-- C10: with flatten, dropna and unique disabled and no retry_timing,
alcall returns one result per input item ordered by input position —
whatever permutation of the indexed results the concurrent completion
produced, the i-th output is f applied to the i-th input. -/
theorem c10_output_order (input : List PyVal) (f : PyVal → PyVal)
    (gathered : List (Nat × PyVal))
    (hperm : gathered.Perm (indexedResults f input)) :
    alcall_order_model gathered = input.map f := by
  have hfst : (indexedResults f input).map Prod.fst = List.range input.length := by
    unfold indexedResults
    rw [List.map_map]
    have hcomp : (Prod.fst ∘ fun p : Nat × PyVal => (p.1, f p.2)) = Prod.fst := rfl
    rw [hcomp, List.enum_map_fst]
  have hsorted_ind :
      List.Pairwise (fun x y : Nat × PyVal => x.1 < y.1) (indexedResults f input) := by
    have h1 : List.Pairwise (· < ·) ((indexedResults f input).map Prod.fst) := by
      rw [hfst]; exact List.pairwise_lt_range _
    exact (List.pairwise_map).mp h1
  have hperm_s : (sortByIdx gathered).Perm (indexedResults f input) :=
    (List.perm_insertionSort _ gathered).trans hperm
  have hsorted_le :
      List.Pairwise (fun x y : Nat × PyVal => x.1 ≤ y.1) (sortByIdx gathered) :=
    List.sorted_insertionSort _ gathered
  have hnodup_ind : ((indexedResults f input).map Prod.fst).Nodup := by
    rw [hfst]; exact List.nodup_range _
  have hnodup_s : ((sortByIdx gathered).map Prod.fst).Nodup :=
    ((hperm_s.map Prod.fst).nodup_iff).mpr hnodup_ind
  have hpairne :
      List.Pairwise (fun x y : Nat × PyVal => x.1 ≠ y.1) (sortByIdx gathered) :=
    (List.pairwise_map).mp hnodup_s
  have hsorted_lt :
      List.Pairwise (fun x y : Nat × PyVal => x.1 < y.1) (sortByIdx gathered) :=
    (hsorted_le.and hpairne).imp (fun h => lt_of_le_of_ne h.1 h.2)
  have hs_eq : sortByIdx gathered = indexedResults f input :=
    List.eq_of_perm_of_sorted hperm_s hsorted_lt hsorted_ind
  unfold alcall_order_model
  rw [hs_eq, process_list_id]
  unfold indexedResults
  rw [List.map_map]
  have hcomp2 : (Prod.snd ∘ fun p : Nat × PyVal => (p.1, f p.2))
      = f ∘ Prod.snd := rfl
  rw [hcomp2, ← List.map_map, List.enum_map_snd]

/-- Witness for C10: a two-element input whose tasks completed in reverse
order still yields the results in input order. -/
theorem c10_output_order_witness :
    alcall_order_model [(1, PyVal.vNat 11), (0, PyVal.vNat 10)]
      = [PyVal.vNat 10, PyVal.vNat 11] := by
  have h := c10_output_order [PyVal.vNat 10, PyVal.vNat 11] (fun v => v)
    [(1, PyVal.vNat 11), (0, PyVal.vNat 10)] ?_
  · exact h
  · have hind : indexedResults (fun v => v) [PyVal.vNat 10, PyVal.vNat 11]
        = [(0, PyVal.vNat 10), (1, PyVal.vNat 11)] := rfl
    rw [hind]
    exact List.Perm.swap (0, PyVal.vNat 10) (1, PyVal.vNat 11) []

end Lionfuncs
